import Mathlib

/-!
Verification of the Privileged Operation Escalation & Audit Engine
(`src/permission-management/python-sdk/permission-manager.py`).

The Python source is shallowly embedded as follows.

* `PermissionLevel`, `OperationResult`, `PrivilegedOperation`, `AuditEntry`
  mirror the enums and dataclasses of the source, field for field.  Machine
  times (`datetime`) are abstracted to `Nat` tick counts; `isoformat` is
  modelled as decimal rendering of the tick count (an injective stand-in
  for the ISO-8601 string).
* Effects are injected explicitly.  A call to
  `PermissionManager.execute_with_escalation` is modelled by
  `execute_with_escalation operation env st`, where `CallEnv` carries the
  ambient facts the Python object and OS supply during that call: the
  privilege flag (`os.getuid() == 0`), the interactive consent answers
  (one string per `input()` read), the behaviour of the spawned process
  (exit / timeout / spawn `PermissionError` / other exception), the two
  clock readings, the acting user, and whether the audit-file append
  raises.  `ManagerState` carries the mutable state: the in-memory session
  history, the audit-log lines, and the secondary `logger.error` channel.
  `logging.info` status output is not part of the audit-record model.
* An exception escaping the call (only possible when the interactive
  consent read hits end of input, exhausting `responses`) is the `none`
  result of `execute_with_escalation`; every other path returns `some`
  trace carrying `(result, message)` exactly as the Python function
  returns them, plus whether the executor was invoked and whether
  `process.kill()` was requested.
* `_log_operation`'s `json.dumps` of the record dict is embedded
  character-for-character (`renderLogEntryChars`), including Python's
  `ensure_ascii` string escaping with `\uXXXX` and surrogate pairs, the
  default `", "` / `": "` separators, and the insertion order of the two
  dict literals.  `get_audit_summary`'s `json.loads(line.strip())` is
  modelled by `pyStrip` followed by `parseRecordLine`, a parser for the
  one-line record grammar the recorder emits; a line outside that grammar
  is treated as corrupt and skipped, exactly as the summary loop skips
  lines that fail to parse.  Numbers are kept as their literal digit runs
  (`duration_seconds` is only ever rendered, never computed with, by the
  summary code).
-/

set_option maxHeartbeats 3200000

namespace PermissionSdk

/-- `PermissionLevel` of the source: permission levels for operations. -/
inductive PermissionLevel where
  | BASIC
  | ELEVATED
  | ADMINISTRATIVE
deriving DecidableEq

/-- The `.value` string of each `PermissionLevel` member. -/
def PermissionLevel.value : PermissionLevel → String
  | .BASIC => "basic"
  | .ELEVATED => "elevated"
  | .ADMINISTRATIVE => "administrative"

/-- `OperationResult` of the source: result of permission operations. -/
inductive OperationResult where
  | SUCCESS
  | PERMISSION_DENIED
  | ESCALATION_FAILED
  | OPERATION_FAILED
  | USER_CANCELLED
deriving DecidableEq

/-- The `.value` string of each `OperationResult` member. -/
def OperationResult.value : OperationResult → String
  | .SUCCESS => "success"
  | .PERMISSION_DENIED => "permission_denied"
  | .ESCALATION_FAILED => "escalation_failed"
  | .OPERATION_FAILED => "operation_failed"
  | .USER_CANCELLED => "user_cancelled"

/-- The `PrivilegedOperation` dataclass.  `environment` keeps the optional
overlay; it is threaded but never observed by the properties below. -/
structure PrivilegedOperation where
  command : List String
  description : String
  permission_level : PermissionLevel
  requires_user_approval : Bool := true
  timeout : Nat := 300
  working_directory : Option String := none
  environment : Option (List (String × String)) := none
deriving DecidableEq

/-- The nested `details` dict built by `_log_operation`. -/
structure AuditDetails where
  description : String
  duration_seconds : Nat
  message : String
  working_directory : Option String
deriving DecidableEq

/-- The `AuditEntry` dataclass (timestamp abstracted to a tick count). -/
structure AuditEntry where
  timestamp : Nat
  operation : String
  permission_level : String
  result : String
  user : String
  details : AuditDetails
deriving DecidableEq

/-- Python whitespace, for `str.strip` (ASCII portion). -/
def isPySpace (c : Char) : Bool :=
  [' ', '\t', '\n', '\r', Char.ofNat 11, Char.ofNat 12].contains c

/-- `str.strip` on a character list: drop whitespace from both ends. -/
def pyStripList (l : List Char) : List Char :=
  ((l.dropWhile isPySpace).reverse.dropWhile isPySpace).reverse

/-- Python `str.strip()`. -/
def pyStrip (s : String) : String :=
  String.mk (pyStripList s.data)

/-- Python `str.lower()`: lowercase character by character (ASCII is all
the classifier's sets and the consent tokens need). -/
def pyLower (s : String) : String :=
  String.mk (s.data.map Char.toLower)

/-- Python `str.startswith`, as a character-list prefix test. -/
def startswith (s pre : String) : Bool :=
  pre.data.isPrefixOf s.data

/-- The `elevated_commands` set of `analyze_command_permissions`. -/
def elevated_commands : List String :=
  ["sudo", "doas", "su", "apt", "apt-get", "yum", "dnf", "pacman",
   "systemctl", "service", "mount", "umount", "fdisk", "mkfs",
   "useradd", "usermod", "userdel", "chmod", "chown", "visudo",
   "pip", "conda", "npm", "yarn"]

/-- The `admin_commands` set of `analyze_command_permissions`. -/
def admin_commands : List String :=
  ["crontab", "iptables", "ufw", "firewall-cmd", "sysctl",
   "hostnamectl", "timedatectl", "localectl"]

/-- The `privileged_paths` list of `analyze_command_permissions`. -/
def privileged_paths : List String :=
  ["/etc", "/usr/local", "/opt", "/var", "/root"]

/-- `PermissionManager.analyze_command_permissions`: classify a command by
the permission level it requires. -/
def analyze_command_permissions (command : List String) : PermissionLevel :=
  match command with
  | [] => PermissionLevel.BASIC
  | c0 :: _ =>
    let first_cmd := pyLower c0
    if first_cmd ∈ admin_commands then PermissionLevel.ADMINISTRATIVE
    else if first_cmd ∈ elevated_commands then PermissionLevel.ELEVATED
    else if command.any (fun arg => privileged_paths.any (fun p => startswith arg p)) then
      PermissionLevel.ELEVATED
    else PermissionLevel.BASIC

/-- `PermissionManager.check_permission_required`, with the manager's
`is_privileged` field passed explicitly. -/
def check_permission_required (operation : PrivilegedOperation)
    (is_privileged : Bool) : Bool :=
  if operation.permission_level = PermissionLevel.BASIC then false
  else if is_privileged then false
  else true

/-- The `while True` input loop of `request_permission`, run against the
queue of interactive answers.  `none` models the read raising at end of
input (the loop itself never returns on unrecognized tokens). -/
def consentLoop : List String → Option Bool
  | [] => none
  | r :: rs =>
    let response := pyLower (pyStrip r)
    if response = "y" ∨ response = "yes" then some true
    else if response = "n" ∨ response = "no" ∨ response = "" then some false
    else consentLoop rs

/-- `PermissionManager.request_permission`: immediate `True` when the
operation needs no approval, otherwise the interactive loop. -/
def request_permission (operation : PrivilegedOperation)
    (responses : List String) : Option Bool :=
  if operation.requires_user_approval = false then some true
  else consentLoop responses

/-- Behaviour of the spawned process as observed through
`subprocess.Popen` / `communicate`, injected per call:  a completed exit
with code and captured streams, `TimeoutExpired`, a `PermissionError`
raised during spawn, or any other exception (message attached). -/
inductive ExecBehavior where
  | completed (returncode : Int) (stdout stderr : String)
  | timedOut
  | spawnPermissionError
  | raisedOther (msg : String)
deriving DecidableEq

/-- Ambient facts of one `execute_with_escalation` call. -/
structure CallEnv where
  is_privileged : Bool
  responses : List String
  behavior : ExecBehavior
  start_time : Nat
  log_time : Nat
  current_user : String
  write_failure : Option String := none
deriving DecidableEq

/-- Mutable state of the manager: session history, audit-log record
lines, and the secondary `logger.error` channel. -/
structure ManagerState where
  session_operations : List AuditEntry := []
  log_file_lines : List String := []
  error_log : List String := []
deriving DecidableEq

/-- Decimal digit characters of `n` (fuelled, so it reduces in the
kernel), prepended to `acc`. -/
def natDigitsGo : Nat → Nat → List Char → List Char
  | 0, _, acc => acc
  | fuel + 1, n, acc =>
    if n < 10 then Char.ofNat ('0'.toNat + n) :: acc
    else natDigitsGo fuel (n / 10) (Char.ofNat ('0'.toNat + n % 10) :: acc)

/-- Decimal digit characters of `n`, most significant first. -/
def natDigits (n : Nat) : List Char :=
  natDigitsGo (n + 1) n []

/-- Python `str` of an integer, as characters. -/
def intChars (i : Int) : List Char :=
  (if i < 0 then ['-'] else []) ++ natDigits i.natAbs

/-- The ISO-8601 timestamp string, abstracted to the decimal rendering of
the tick count (injective, which is all the properties need). -/
def isoformat (t : Nat) : String :=
  String.mk (natDigits t)

/-- Lowercase hex digit character for `n < 16` (as `json.dumps` emits). -/
def hexDigitChar (n : Nat) : Char :=
  Char.ofNat (if n < 10 then '0'.toNat + n else 'a'.toNat + n - 10)

/-- A `\uXXXX` escape for a code unit `n < 0x10000`. -/
def hexEscape (n : Nat) : List Char :=
  ['\\', 'u', hexDigitChar (n / 4096 % 16), hexDigitChar (n / 256 % 16),
   hexDigitChar (n / 16 % 16), hexDigitChar (n % 16)]

/-- One character as `json.dumps` (default `ensure_ascii=True`) writes it:
two-character escapes for the JSON specials, `\uXXXX` for other control
characters and all non-printable-ASCII, surrogate pairs beyond the BMP. -/
def escapeChar (c : Char) : List Char :=
  if c = '"' then ['\\', '"']
  else if c = '\\' then ['\\', '\\']
  else if c = '\n' then ['\\', 'n']
  else if c = '\r' then ['\\', 'r']
  else if c = '\t' then ['\\', 't']
  else if c = Char.ofNat 8 then ['\\', 'b']
  else if c = Char.ofNat 12 then ['\\', 'f']
  else if c.toNat < 0x20 then hexEscape c.toNat
  else if c.toNat < 0x7f then [c]
  else if c.toNat < 0x10000 then hexEscape c.toNat
  else hexEscape (0xd800 + (c.toNat - 0x10000) / 0x400)
       ++ hexEscape (0xdc00 + (c.toNat - 0x10000) % 0x400)

/-- A JSON string literal for `s`: a quote, the escaped body, a quote. -/
def jsonString (s : String) : List Char :=
  '"' :: (s.data.flatMap escapeChar ++ ['"'])

/-- `null` or a JSON string, for the optional `working_directory`. -/
def renderOptString : Option String → List Char
  | none => "null".data
  | some s => jsonString s

/-- The serialized `details` object of a record line, with the two
closing braces. -/
def renderDetailsChars (d : AuditDetails) : List Char :=
  ", \"details\": \x7b\"description\": ".data ++ jsonString d.description
  ++ ", \"duration_seconds\": ".data ++ natDigits d.duration_seconds
  ++ ", \"message\": ".data ++ jsonString d.message
  ++ ", \"working_directory\": ".data ++ renderOptString d.working_directory
  ++ "\x7d\x7d".data

/-- The one-line `json.dumps` of `_log_operation`'s `log_entry` dict, as
characters: keys in insertion order, `", "` and `": "` separators. -/
def renderLogEntryChars (e : AuditEntry) : List Char :=
  "\x7b\"timestamp\": ".data ++ jsonString (isoformat e.timestamp)
  ++ ", \"operation\": ".data ++ jsonString e.operation
  ++ ", \"permission_level\": ".data ++ jsonString e.permission_level
  ++ ", \"result\": ".data ++ jsonString e.result
  ++ ", \"user\": ".data ++ jsonString e.user
  ++ renderDetailsChars e.details

/-- The audit-log line written for an entry. -/
def renderLogEntry (e : AuditEntry) : String :=
  String.mk (renderLogEntryChars e)

/-- The `AuditEntry` that `_log_operation` constructs. -/
def mkAuditEntry (operation : PrivilegedOperation) (result : OperationResult)
    (message : String) (env : CallEnv) : AuditEntry :=
  { timestamp := env.start_time
    operation := String.intercalate " " operation.command
    permission_level := operation.permission_level.value
    result := result.value
    user := env.current_user
    details :=
      { description := operation.description
        duration_seconds := env.log_time - env.start_time
        message := message
        working_directory := operation.working_directory } }

/-- `PermissionManager._log_operation`: append the entry to the session
history, then append the serialized line to the log file; a failing file
write is caught and reported on the `logger.error` channel instead. -/
def log_operation (operation : PrivilegedOperation) (result : OperationResult)
    (message : String) (env : CallEnv) (st : ManagerState) : ManagerState :=
  let audit_entry := mkAuditEntry operation result message env
  let st1 := { st with session_operations := st.session_operations ++ [audit_entry] }
  match env.write_failure with
  | none => { st1 with log_file_lines := st1.log_file_lines ++ [renderLogEntry audit_entry] }
  | some err => { st1 with error_log := st1.error_log ++ ["Failed to write audit log: " ++ err] }

/-- The message of the timeout branch. -/
def timeoutMessage (timeout : Nat) : String :=
  String.mk ("Operation timed out after ".data ++ natDigits timeout ++ " seconds".data)

/-- The message of the non-zero-exit branch. -/
def returncodeFailureMessage (returncode : Int) (stderr : String) : String :=
  String.mk ("Command failed with return code ".data ++ intChars returncode
             ++ ": ".data ++ stderr.data)

/-- The message of the success branch (`stdout or "Operation completed
successfully"`: the empty string is falsy). -/
def successMessage (stdout : String) : String :=
  if stdout = "" then "Operation completed successfully" else stdout

/-- The `try`/`except` block around the spawn: map the process behaviour
to `(result, message, kill-was-requested)`. -/
def runProcess (operation : PrivilegedOperation) (behavior : ExecBehavior) :
    OperationResult × String × Bool :=
  match behavior with
  | .completed returncode out err =>
    if returncode = 0 then (OperationResult.SUCCESS, successMessage out, false)
    else (OperationResult.OPERATION_FAILED, returncodeFailureMessage returncode err, false)
  | .timedOut => (OperationResult.OPERATION_FAILED, timeoutMessage operation.timeout, true)
  | .spawnPermissionError =>
    (OperationResult.PERMISSION_DENIED, "Permission denied - unable to execute command", false)
  | .raisedOther m => (OperationResult.OPERATION_FAILED, "Unexpected error: " ++ m, false)

/-- The consent gate as the orchestrator consults it: skipped (always
true) when no escalation is needed, otherwise `request_permission`. -/
def gateResult (operation : PrivilegedOperation) (env : CallEnv) : Option Bool :=
  if check_permission_required operation env.is_privileged then
    request_permission operation env.responses
  else some true

/-- Observable outcome of one call: the returned `(result, message)`
pair, whether the executor was invoked (`spawned`) and with which argv,
whether `process.kill()` was requested, and the state after the call. -/
structure CallTrace where
  result : OperationResult
  message : String
  spawned : Bool
  spawned_command : List String
  kill_attempted : Bool
  state : ManagerState
deriving DecidableEq

/-- `PermissionManager.execute_with_escalation`.  `none` is an exception
escaping to the caller (consent read at end of input); otherwise the
call completes with a trace. -/
def execute_with_escalation (operation : PrivilegedOperation) (env : CallEnv)
    (st : ManagerState) : Option CallTrace :=
  match gateResult operation env with
  | none => none
  | some false =>
    some { result := OperationResult.USER_CANCELLED
           message := "User cancelled the operation"
           spawned := false
           spawned_command := []
           kill_attempted := false
           state := log_operation operation OperationResult.USER_CANCELLED
                      "User cancelled the operation" env st }
  | some true =>
    let command :=
      if check_permission_required operation env.is_privileged && !env.is_privileged then
        "sudo" :: operation.command
      else operation.command
    let outcome := runProcess operation env.behavior
    some { result := outcome.1
           message := outcome.2.1
           spawned := true
           spawned_command := command
           kill_attempted := outcome.2.2
           state := log_operation operation outcome.1 outcome.2.1 env st }

/-- The `(result, message)` a completing call returns, as a function of
the operation and its environment. -/
def callOutcome (operation : PrivilegedOperation) (env : CallEnv) :
    OperationResult × String :=
  match gateResult operation env with
  | some false => (OperationResult.USER_CANCELLED, "User cancelled the operation")
  | _ => ((runProcess operation env.behavior).1, (runProcess operation env.behavior).2.1)

/-- The audit entry a completing call appends. -/
def callAuditEntry (operation : PrivilegedOperation) (env : CallEnv) : AuditEntry :=
  mkAuditEntry operation (callOutcome operation env).1 (callOutcome operation env).2 env

/-- `PermissionManager.get_session_history` (it returns a copy of the
session list; a copy of an immutable value is the value). -/
def get_session_history (st : ManagerState) : List AuditEntry :=
  st.session_operations

/-- A sequence of orchestrator calls threading the manager state; `none`
as soon as one call lets an exception escape. -/
def runCalls : List (PrivilegedOperation × CallEnv) → ManagerState → Option ManagerState
  | [], st => some st
  | (operation, env) :: rest, st =>
    match execute_with_escalation operation env st with
    | none => none
    | some t => runCalls rest t.state

/-- A parsed audit-log record, as the summary code reads it back
(`details` flattened; the numeric field kept as its literal token, since
the summary never computes with it). -/
structure LogRecord where
  timestamp : String
  operation : String
  permission_level : String
  result : String
  user : String
  description : String
  duration_lit : String
  message : String
  working_directory : Option String
deriving DecidableEq

/-- Value of one hex digit, either case (as the JSON scanner accepts). -/
def hexVal? (c : Char) : Option Nat :=
  if c.isDigit then some (c.toNat - '0'.toNat)
  else if 'a' ≤ c ∧ c ≤ 'f' then some (c.toNat - 87)
  else if 'A' ≤ c ∧ c ≤ 'F' then some (c.toNat - 55)
  else none

/-- Value of a `\uXXXX` payload. -/
def hex4? (a b c d : Char) : Option Nat :=
  match hexVal? a, hexVal? b, hexVal? c, hexVal? d with
  | some va, some vb, some vc, some vd => some (((va * 16 + vb) * 16 + vc) * 16 + vd)
  | _, _, _, _ => none

/-- One short escape (`\"`, `\\`, `\/`, `\n`, `\r`, `\t`, `\b`, `\f`):
the three self-representing characters map to themselves, the five
letters to their control characters. -/
def unescapeChar (e : Char) : Option Char :=
  if e = 'n' then some '\n'
  else if e = 't' then some '\t'
  else if e = 'r' then some '\r'
  else if e = 'b' then some (Char.ofNat 8)
  else if e = 'f' then some (Char.ofNat 12)
  else if e = '"' ∨ e = '\\' ∨ e = '/' then some e
  else none

/-- Scan a JSON string body after the opening quote: unescape, pair up
surrogates, reject raw control characters and lone surrogates (the
latter are unrepresentable as `Char`), stop at the closing quote. -/
def parseStringBody (acc : List Char) : List Char → Option (String × List Char)
  | '"' :: rest => some (String.mk acc.reverse, rest)
  | '\\' :: 'u' :: a :: b :: d1 :: d2 :: rest =>
    (match hex4? a b d1 d2 with
     | none => none
     | some n =>
       if 0xd800 ≤ n ∧ n < 0xdc00 then
         match rest with
         | '\\' :: 'u' :: a2 :: b2 :: c2 :: e2 :: rest2 =>
           (match hex4? a2 b2 c2 e2 with
            | none => none
            | some n2 =>
              if 0xdc00 ≤ n2 ∧ n2 < 0xe000 then
                parseStringBody
                  (Char.ofNat (0x10000 + (n - 0xd800) * 0x400 + (n2 - 0xdc00)) :: acc) rest2
              else none)
         | _ => none
       else if 0xdc00 ≤ n ∧ n < 0xe000 then none
       else parseStringBody (Char.ofNat n :: acc) rest)
  | '\\' :: e :: rest =>
    (match unescapeChar e with
     | some ch => parseStringBody (ch :: acc) rest
     | none => none)
  | c :: rest => if c.toNat < 0x20 then none else parseStringBody (c :: acc) rest
  | [] => none
termination_by structural cs => cs

/-- A JSON string literal: opening quote, then the body scan. -/
def parseJsonString : List Char → Option (String × List Char)
  | '"' :: rest => parseStringBody [] rest
  | _ => none

/-- Consume an expected literal character sequence. -/
def dropLit : List Char → List Char → Option (List Char)
  | [], cs => some cs
  | p :: ps, c :: cs => if c = p then dropLit ps cs else none
  | _ :: _, [] => none

/-- A literal digit run (the only number shape the recorder emits), kept
as its token. -/
def parseNumberLit (cs : List Char) : Option (String × List Char) :=
  let ds := cs.takeWhile Char.isDigit
  if ds = [] then none else some (String.mk ds, cs.dropWhile Char.isDigit)

/-- `null` or a JSON string. -/
def parseNullOrString (cs : List Char) : Option (Option String × List Char) :=
  match dropLit "null".data cs with
  | some rest => some (none, rest)
  | none =>
    match parseJsonString cs with
    | some p => some (some p.1, p.2)
    | none => none

/-- An expected key/separator literal followed by a JSON string value. -/
def litStr (lit : List Char) (cs : List Char) : Option (String × List Char) :=
  (dropLit lit cs).bind parseJsonString

/-- The five leading string fields of a record line, in the order the
recorder writes them. -/
def parseRecordFront (cs : List Char) :
    Option (String × String × String × String × String × List Char) :=
  (litStr "\x7b\"timestamp\": ".data cs).bind fun p1 =>
  (litStr ", \"operation\": ".data p1.2).bind fun p2 =>
  (litStr ", \"permission_level\": ".data p2.2).bind fun p3 =>
  (litStr ", \"result\": ".data p3.2).bind fun p4 =>
  (litStr ", \"user\": ".data p4.2).bind fun p5 =>
  some (p1.1, p2.1, p3.1, p4.1, p5.1, p5.2)

/-- The nested `details` object of a record line and the two closing
braces. -/
def parseRecordBack (cs : List Char) :
    Option (String × String × String × Option String × List Char) :=
  (litStr ", \"details\": \x7b\"description\": ".data cs).bind fun q1 =>
  ((dropLit ", \"duration_seconds\": ".data q1.2).bind parseNumberLit).bind fun q2 =>
  (litStr ", \"message\": ".data q2.2).bind fun q3 =>
  ((dropLit ", \"working_directory\": ".data q3.2).bind parseNullOrString).bind fun q4 =>
  (dropLit "\x7d\x7d".data q4.2).bind fun q5 =>
  some (q1.1, q2.1, q3.1, q4.1, q5)

/-- Parse one line of the audit log against the record grammar the
recorder emits.  Any line outside the grammar yields `none` (it is a
corrupt line for the summary). -/
def parseRecordLine (s : String) : Option LogRecord :=
  (parseRecordFront s.data).bind fun front =>
  (parseRecordBack front.2.2.2.2.2).bind fun back =>
  if back.2.2.2.2 = [] then
    some { timestamp := front.1, operation := front.2.1, permission_level := front.2.2.1,
           result := front.2.2.2.1, user := front.2.2.2.2.1,
           description := back.1, duration_lit := back.2.1, message := back.2.2.1,
           working_directory := back.2.2.2.1 }
  else none

/-- `json.loads(line.strip())` of the summary loop, against the record
grammar. -/
def parseAuditLine (line : String) : Option LogRecord :=
  parseRecordLine (pyStrip line)

/-- The record `parseAuditLine` recovers from a rendered entry. -/
def recordOfEntry (e : AuditEntry) : LogRecord :=
  { timestamp := isoformat e.timestamp
    operation := e.operation
    permission_level := e.permission_level
    result := e.result
    user := e.user
    description := e.details.description
    duration_lit := String.mk (natDigits e.details.duration_seconds)
    message := e.details.message
    working_directory := e.details.working_directory }

/-- Python `xs[-k:]` for `k : Nat`: the last `k` elements, except that
`k = 0` (since `-0` is `0`) slices from the front and keeps everything. -/
def pyTailSlice (k : Nat) (xs : List LogRecord) : List LogRecord :=
  if k = 0 then xs else xs.drop (xs.length - k)

/-- The summary dictionary `get_audit_summary` builds. -/
structure AuditSummary where
  total_entries : Nat
  success_count : Nat
  failure_count : Nat
  elevated_operations : Nat
  recent_operations : List LogRecord
deriving DecidableEq

/-- `PermissionManager.get_audit_summary` on the lines of an existing
log file: parse each line (skipping failures), keep the most recent
`limit` entries, count. -/
def get_audit_summary (lines : List String) (limit : Nat) : AuditSummary :=
  let entries := lines.filterMap parseAuditLine
  let recent_entries := if entries.length > limit then pyTailSlice limit entries else entries
  { total_entries := recent_entries.length
    success_count := (recent_entries.filter (fun e => e.result == "success")).length
    failure_count := (recent_entries.filter (fun e => !(e.result == "success"))).length
    elevated_operations :=
      (recent_entries.filter
        (fun e => e.permission_level == "elevated" || e.permission_level == "administrative")).length
    recent_operations := pyTailSlice 10 recent_entries }

/-! ### Concrete fixtures used by the witnesses below -/

/-- A BASIC operation (no escalation, no consent prompt). -/
def opBasic : PrivilegedOperation :=
  { command := ["echo", "hi"], description := "say hi",
    permission_level := PermissionLevel.BASIC }

/-- An ELEVATED operation that needs approval. -/
def opElev : PrivilegedOperation :=
  { command := ["chmod", "755", "/tmp/x"], description := "chmod a file",
    permission_level := PermissionLevel.ELEVATED }

/-- A benign environment: unprivileged, process exits 0. -/
def envOk : CallEnv :=
  { is_privileged := false, responses := [], behavior := ExecBehavior.completed 0 "done" "",
    start_time := 3, log_time := 5, current_user := "alice" }

/-- Same, but the consent channel answers no. -/
def envNo : CallEnv := { envOk with responses := [" N "] }

/-- Same, but consent yes and the process times out. -/
def envYesTimeout : CallEnv :=
  { envOk with responses := ["y"], behavior := ExecBehavior.timedOut }

/-- Same, but the audit-file append raises. -/
def envWriteFail : CallEnv := { envOk with write_failure := some "disk full" }

/-- The trace of `opBasic` under `envOk`. -/
def trOk : CallTrace := (execute_with_escalation opBasic envOk {}).get (by decide)

/-- The trace of `opBasic` under `envWriteFail`. -/
def trWriteFail : CallTrace :=
  (execute_with_escalation opBasic envWriteFail {}).get (by decide)

/-- The state after a sequence of two completing calls, the second with a
failing audit write. -/
def stTwoCalls : ManagerState :=
  (runCalls [(opBasic, envOk), (opBasic, envWriteFail)] {}).get (by decide)

/-- A small audit entry used to exercise the codec and the summary. -/
def entryW : AuditEntry :=
  { timestamp := 3, operation := "echo hi", permission_level := "basic",
    result := "success", user := "alice",
    details := { description := "say hi", duration_seconds := 2,
                 message := "done", working_directory := none } }

/-! ### Orchestrator lemmas -/

/-- The gate ignores the injected write-failure flag. -/
theorem gateResult_write_irrel (operation : PrivilegedOperation) (env : CallEnv)
    (w : Option String) :
    gateResult operation { env with write_failure := w } = gateResult operation env := rfl

/-- So does the whole observable outcome. -/
theorem callOutcome_write_irrel (operation : PrivilegedOperation) (env : CallEnv)
    (w : Option String) :
    callOutcome operation { env with write_failure := w } = callOutcome operation env := rfl

/-- Any completing call returns exactly `callOutcome` and ends in the
logged state. -/
theorem execute_spec (operation : PrivilegedOperation) (env : CallEnv) (st : ManagerState)
    (t : CallTrace) (h : execute_with_escalation operation env st = some t) :
    t.result = (callOutcome operation env).1 ∧
    t.message = (callOutcome operation env).2 ∧
    t.state = log_operation operation (callOutcome operation env).1
                (callOutcome operation env).2 env st := by
  unfold execute_with_escalation at h
  unfold callOutcome
  cases hg : gateResult operation env with
  | none => rw [hg] at h; cases h
  | some b =>
    rw [hg] at h
    cases b with
    | false =>
      simp only [Option.some.injEq] at h
      subst h
      exact ⟨rfl, rfl, rfl⟩
    | true =>
      simp only [Option.some.injEq] at h
      subst h
      exact ⟨rfl, rfl, rfl⟩

/-- A call completes whenever the gate answers. -/
theorem execute_total (operation : PrivilegedOperation) (env : CallEnv) (st : ManagerState)
    (hg : gateResult operation env ≠ none) :
    ∃ t, execute_with_escalation operation env st = some t := by
  unfold execute_with_escalation
  cases h : gateResult operation env with
  | none => exact absurd h hg
  | some b => cases b <;> exact ⟨_, rfl⟩

/-- Effect of one completing call on the three state components. -/
theorem execute_log_effects (operation : PrivilegedOperation) (env : CallEnv)
    (st : ManagerState) (t : CallTrace)
    (h : execute_with_escalation operation env st = some t) :
    t.state.session_operations = st.session_operations ++ [callAuditEntry operation env] ∧
    (env.write_failure = none →
      t.state.log_file_lines
        = st.log_file_lines ++ [renderLogEntry (callAuditEntry operation env)] ∧
      t.state.error_log = st.error_log) ∧
    (∀ err, env.write_failure = some err →
      t.state.log_file_lines = st.log_file_lines ∧
      t.state.error_log = st.error_log ++ ["Failed to write audit log: " ++ err]) := by
  obtain ⟨-, -, hst⟩ := execute_spec operation env st t h
  rw [hst]
  unfold log_operation callAuditEntry
  cases hw : env.write_failure with
  | none =>
    exact ⟨by simp, fun _ => ⟨by simp, by simp⟩, fun err he => Option.noConfusion he⟩
  | some err =>
    refine ⟨by simp, fun he => Option.noConfusion he, fun err2 he => ?_⟩
    have he2 : err = err2 := Option.some.inj he
    subst he2
    exact ⟨by simp, by simp⟩

/-- The session history of a completed call sequence, by induction. -/
theorem runCalls_session_append (calls : List (PrivilegedOperation × CallEnv)) :
    ∀ st st', runCalls calls st = some st' →
      st'.session_operations
        = st.session_operations ++ calls.map (fun pe => callAuditEntry pe.1 pe.2) := by
  induction calls with
  | nil =>
    intro st st' h
    unfold runCalls at h
    injection h with h
    subst h
    simp
  | cons pe rest ih =>
    intro st st' h
    obtain ⟨operation, env⟩ := pe
    unfold runCalls at h
    cases hx : execute_with_escalation operation env st with
    | none => rw [hx] at h; cases h
    | some t =>
      rw [hx] at h
      have hsess := (execute_log_effects operation env st t hx).1
      rw [ih t.state st' h, hsess]
      simp

/-- The two failure messages of the executor differ at their first
character, whatever the code, stderr and timeout are. -/
theorem timeoutMessage_ne_failure (n : Nat) (returncode : Int) (stderr : String) :
    timeoutMessage n ≠ returncodeFailureMessage returncode stderr := by
  intro h
  have h1 : (timeoutMessage n).data.head? = some 'O' := rfl
  rw [h] at h1
  have h2 : (returncodeFailureMessage returncode stderr).data.head? = some 'C' := rfl
  rw [h2] at h1
  exact absurd h1 (by decide)

/-! ### Claims about the orchestrator -/

/-- C1: every completing `execute_with_escalation` call appends exactly
one `AuditEntry` to the session history, and, when the file append does
not fail, exactly one serialized record line to the audit log —
regardless of the outcome (cancellation, timeout, spawn failure,
non-zero exit or success). -/
theorem execute_appends_exactly_one_audit_record (operation : PrivilegedOperation)
    (env : CallEnv) (st : ManagerState) (t : CallTrace)
    (h : execute_with_escalation operation env st = some t) :
    ∃ e : AuditEntry,
      t.state.session_operations = st.session_operations ++ [e] ∧
      (env.write_failure = none →
        t.state.log_file_lines = st.log_file_lines ++ [renderLogEntry e]) := by
  obtain ⟨h1, h2, -⟩ := execute_log_effects operation env st t h
  exact ⟨callAuditEntry operation env, h1, fun hw => (h2 hw).1⟩

/-- C1 witness: the audited BASIC call at a concrete input. -/
theorem execute_appends_exactly_one_audit_record_witness :
    execute_with_escalation opBasic envOk {} = some trOk ∧
    ∃ e : AuditEntry,
      trOk.state.session_operations = ({} : ManagerState).session_operations ++ [e] ∧
      (envOk.write_failure = none →
        trOk.state.log_file_lines
          = ({} : ManagerState).log_file_lines ++ [renderLogEntry e]) :=
  ⟨(Option.some_get (by decide)).symm,
   execute_appends_exactly_one_audit_record opBasic envOk {} trOk
     (Option.some_get (by decide)).symm⟩

/-- C2: when escalation is required and the consent gate answers no, the
call completes as `USER_CANCELLED` and the executor is never invoked. -/
theorem declined_consent_never_spawns (operation : PrivilegedOperation) (env : CallEnv)
    (st : ManagerState)
    (hneeds : check_permission_required operation env.is_privileged = true)
    (hgate : request_permission operation env.responses = some false) :
    ∃ t, execute_with_escalation operation env st = some t ∧
      t.result = OperationResult.USER_CANCELLED ∧ t.spawned = false := by
  have hg : gateResult operation env = some false := by
    unfold gateResult
    rw [if_pos (by simp [hneeds])]
    exact hgate
  unfold execute_with_escalation
  rw [hg]
  exact ⟨_, rfl, rfl, rfl⟩

/-- C2 witness: the elevated operation with a declined prompt. -/
theorem declined_consent_never_spawns_witness :
    check_permission_required opElev envNo.is_privileged = true ∧
    request_permission opElev envNo.responses = some false ∧
    ∃ t, execute_with_escalation opElev envNo {} = some t ∧
      t.result = OperationResult.USER_CANCELLED ∧ t.spawned = false :=
  ⟨by decide, by decide,
   declined_consent_never_spawns opElev envNo {} (by decide) (by decide)⟩

/-- C3: as long as the interactive consent read does not hit end of
input, the call always completes with one of the five declared outcome
values and a message — no failure mode escapes as an exception. -/
theorem execute_never_raises (operation : PrivilegedOperation) (env : CallEnv)
    (st : ManagerState)
    (hgate : check_permission_required operation env.is_privileged = true →
             (request_permission operation env.responses).isSome = true) :
    ∃ t, execute_with_escalation operation env st = some t ∧
      (t.result = OperationResult.SUCCESS ∨ t.result = OperationResult.PERMISSION_DENIED ∨
       t.result = OperationResult.OPERATION_FAILED ∨
       t.result = OperationResult.USER_CANCELLED ∨
       t.result = OperationResult.ESCALATION_FAILED) := by
  have hg : gateResult operation env ≠ none := by
    unfold gateResult
    by_cases hc : check_permission_required operation env.is_privileged
    · rw [if_pos (by simp [hc])]
      have := hgate (by simpa using hc)
      intro hn
      rw [hn] at this
      exact absurd this (by decide)
    · rw [if_neg (by simpa using hc)]
      exact fun hn => Option.noConfusion hn
  obtain ⟨t, ht⟩ := execute_total operation env st hg
  refine ⟨t, ht, ?_⟩
  have : ∀ r : OperationResult,
      r = OperationResult.SUCCESS ∨ r = OperationResult.PERMISSION_DENIED ∨
      r = OperationResult.OPERATION_FAILED ∨ r = OperationResult.USER_CANCELLED ∨
      r = OperationResult.ESCALATION_FAILED := by
    intro r; cases r <;> simp
  exact this t.result

/-- C3 witness: the BASIC call with an empty consent queue. -/
theorem execute_never_raises_witness :
    (check_permission_required opBasic envOk.is_privileged = true →
      (request_permission opBasic envOk.responses).isSome = true) ∧
    ∃ t, execute_with_escalation opBasic envOk {} = some t ∧
      (t.result = OperationResult.SUCCESS ∨ t.result = OperationResult.PERMISSION_DENIED ∨
       t.result = OperationResult.OPERATION_FAILED ∨
       t.result = OperationResult.USER_CANCELLED ∨
       t.result = OperationResult.ESCALATION_FAILED) :=
  ⟨by decide, execute_never_raises opBasic envOk {} (by decide)⟩

/-- C4: a timed-out process yields `OPERATION_FAILED`, the timeout
message, and a kill request; the timeout message differs from every
non-zero-exit message. -/
theorem timeout_reported_distinctly (operation : PrivilegedOperation) (env : CallEnv)
    (st : ManagerState)
    (hbeh : env.behavior = ExecBehavior.timedOut)
    (hgate : check_permission_required operation env.is_privileged = true →
             request_permission operation env.responses = some true) :
    ∃ t, execute_with_escalation operation env st = some t ∧
      t.result = OperationResult.OPERATION_FAILED ∧
      t.message = timeoutMessage operation.timeout ∧
      t.kill_attempted = true ∧
      ∀ returncode stderr,
        timeoutMessage operation.timeout ≠ returncodeFailureMessage returncode stderr := by
  have hg : gateResult operation env = some true := by
    unfold gateResult
    by_cases hc : check_permission_required operation env.is_privileged
    · rw [if_pos (by simp [hc])]
      exact hgate (by simpa using hc)
    · rw [if_neg (by simpa using hc)]
  unfold execute_with_escalation
  rw [hg]
  refine ⟨_, rfl, ?_, ?_, ?_, fun rc err => timeoutMessage_ne_failure _ rc err⟩
  · simp [runProcess, hbeh]
  · simp [runProcess, hbeh]
  · simp [runProcess, hbeh]

/-- C4 witness: approved elevated operation whose process times out. -/
theorem timeout_reported_distinctly_witness :
    envYesTimeout.behavior = ExecBehavior.timedOut ∧
    (check_permission_required opElev envYesTimeout.is_privileged = true →
      request_permission opElev envYesTimeout.responses = some true) ∧
    ∃ t, execute_with_escalation opElev envYesTimeout {} = some t ∧
      t.result = OperationResult.OPERATION_FAILED ∧
      t.message = timeoutMessage opElev.timeout ∧
      t.kill_attempted = true ∧
      ∀ returncode stderr,
        timeoutMessage opElev.timeout ≠ returncodeFailureMessage returncode stderr :=
  ⟨rfl, by decide,
   timeout_reported_distinctly opElev envYesTimeout {} rfl (by decide)⟩

/-- C5: a failing audit-file append changes neither the returned
`(result, message)` nor the log file; it is reported once on the
`logger.error` channel, and the call still completes (nothing is raised
to the caller). -/
theorem audit_write_failure_isolated (operation : PrivilegedOperation) (env : CallEnv)
    (st : ManagerState) (err : String) (t : CallTrace)
    (h : execute_with_escalation operation { env with write_failure := some err } st
           = some t) :
    (execute_with_escalation operation { env with write_failure := none } st).map
        (fun u => (u.result, u.message)) = some (t.result, t.message) ∧
    t.state.log_file_lines = st.log_file_lines ∧
    t.state.error_log = st.error_log ++ ["Failed to write audit log: " ++ err] := by
  have hgn : gateResult operation { env with write_failure := none } ≠ none := by
    intro hn
    have hx : gateResult operation { env with write_failure := some err } = none := hn
    unfold execute_with_escalation at h
    rw [hx] at h
    exact Option.noConfusion h
  obtain ⟨t0, ht0⟩ := execute_total operation { env with write_failure := none } st hgn
  obtain ⟨hr, hm, -⟩ := execute_spec _ _ _ _ h
  obtain ⟨hr0, hm0, -⟩ := execute_spec _ _ _ _ ht0
  obtain ⟨-, -, heff⟩ :=
    execute_log_effects operation { env with write_failure := some err } st t h
  obtain ⟨hfile, herr⟩ := heff err rfl
  refine ⟨?_, hfile, herr⟩
  rw [ht0]
  have hms : (some t0).map (fun u => (u.result, u.message)) = some (t0.result, t0.message) := rfl
  rw [hms, hr, hm, hr0, hm0]
  rfl

/-- C5 witness: the same BASIC call with and without the failing write. -/
theorem audit_write_failure_isolated_witness :
    execute_with_escalation opBasic { envOk with write_failure := some "disk full" } {}
        = some trWriteFail ∧
    ((execute_with_escalation opBasic { envOk with write_failure := none } {}).map
        (fun u => (u.result, u.message)) = some (trWriteFail.result, trWriteFail.message) ∧
      trWriteFail.state.log_file_lines = ({} : ManagerState).log_file_lines ∧
      trWriteFail.state.error_log
        = ({} : ManagerState).error_log ++ ["Failed to write audit log: " ++ "disk full"]) :=
  ⟨(Option.some_get (by decide)).symm,
   audit_write_failure_isolated opBasic envOk {} "disk full" trWriteFail
     (Option.some_get (by decide)).symm⟩

/-- The executor maps every behaviour to an outcome other than
`ESCALATION_FAILED`. -/
theorem runProcess_result_ne_escalation_failed (operation : PrivilegedOperation)
    (behavior : ExecBehavior) :
    (runProcess operation behavior).1 ≠ OperationResult.ESCALATION_FAILED := by
  cases behavior with
  | completed rc out errS => by_cases h0 : rc = 0 <;> simp [runProcess, h0]
  | timedOut => simp [runProcess]
  | spawnPermissionError => simp [runProcess]
  | raisedOther m => simp [runProcess]

/-- C8: no completing call ever returns `ESCALATION_FAILED`: the
declared value is produced on no path of the orchestrator. -/
theorem escalation_failed_never_returned (operation : PrivilegedOperation) (env : CallEnv)
    (st : ManagerState) (t : CallTrace)
    (h : execute_with_escalation operation env st = some t) :
    t.result ≠ OperationResult.ESCALATION_FAILED := by
  obtain ⟨hr, -, -⟩ := execute_spec operation env st t h
  rw [hr]
  unfold callOutcome
  cases hg : gateResult operation env with
  | none => exact runProcess_result_ne_escalation_failed operation env.behavior
  | some b =>
    cases b with
    | false => simp
    | true => exact runProcess_result_ne_escalation_failed operation env.behavior

/-- C8 witness: the successful BASIC call. -/
theorem escalation_failed_never_returned_witness :
    execute_with_escalation opBasic envOk {} = some trOk ∧
    trOk.result ≠ OperationResult.ESCALATION_FAILED :=
  ⟨(Option.some_get (by decide)).symm,
   escalation_failed_never_returned opBasic envOk {} trOk
     (Option.some_get (by decide)).symm⟩

/-- C10: after any completed sequence of calls the session history holds
exactly one entry per call, in completion order — also for calls whose
audit-file write failed (the entry is appended before the file write is
attempted). -/
theorem session_history_one_entry_per_completed_call
    (calls : List (PrivilegedOperation × CallEnv)) (st st' : ManagerState)
    (h : runCalls calls st = some st') :
    get_session_history st'
      = get_session_history st ++ calls.map (fun pe => callAuditEntry pe.1 pe.2) :=
  runCalls_session_append calls st st' h

/-- C10 witness: two completing calls, the second with a failing audit
write. -/
theorem session_history_one_entry_per_completed_call_witness :
    runCalls [(opBasic, envOk), (opBasic, envWriteFail)] {} = some stTwoCalls ∧
    get_session_history stTwoCalls
      = get_session_history {}
        ++ ([(opBasic, envOk), (opBasic, envWriteFail)].map
              fun pe => callAuditEntry pe.1 pe.2) :=
  ⟨(Option.some_get (by decide)).symm,
   session_history_one_entry_per_completed_call
     [(opBasic, envOk), (opBasic, envWriteFail)] {} stTwoCalls
     (Option.some_get (by decide)).symm⟩

/-- C6: when the (case-insensitively matched) first token is in neither
command set, the classifier returns ELEVATED exactly when some argument
string starts with one of the privileged filesystem roots, and BASIC
otherwise. -/
theorem classify_by_privileged_paths (c0 : String) (args : List String)
    (hadmin : pyLower c0 ∉ admin_commands)
    (helev : pyLower c0 ∉ elevated_commands) :
    analyze_command_permissions (c0 :: args)
      = (if (c0 :: args).any (fun arg => privileged_paths.any fun p => startswith arg p)
         then PermissionLevel.ELEVATED else PermissionLevel.BASIC) := by
  simp only [analyze_command_permissions]
  rw [if_neg hadmin, if_neg helev]

/-- C6 witness: `ls /etc/hosts` is classified ELEVATED through the path
check alone. -/
theorem classify_by_privileged_paths_witness :
    pyLower "ls" ∉ admin_commands ∧ pyLower "ls" ∉ elevated_commands ∧
    analyze_command_permissions ["ls", "/etc/hosts"]
      = (if (["ls", "/etc/hosts"] : List String).any
            (fun arg => privileged_paths.any fun p => startswith arg p)
         then PermissionLevel.ELEVATED else PermissionLevel.BASIC) :=
  ⟨by decide, by decide,
   classify_by_privileged_paths "ls" ["/etc/hosts"] (by decide) (by decide)⟩

/-! ### Codec lemmas: the recorder's line parses back to the record -/

/-- Consuming an expected literal succeeds exactly on that literal. -/
theorem dropLit_append (p cs : List Char) : dropLit p (p ++ cs) = some cs := by
  induction p with
  | nil => rfl
  | cons c t ih => simp [dropLit, ih]

/-- Special case: nothing after the literal. -/
theorem dropLit_self (p : List Char) : dropLit p p = some [] := by
  have h := dropLit_append p []
  rwa [List.append_nil] at h

/-- The hex scanner inverts the hex-digit renderer. -/
theorem hexVal?_hexDigitChar : ∀ d < 16, hexVal? (hexDigitChar d) = some d := by decide

/-- The four rendered hex digits of `n < 0x10000` decode to `n`. -/
theorem hex4?_parts (n : Nat) (h : n < 65536) :
    hex4? (hexDigitChar (n / 4096 % 16)) (hexDigitChar (n / 256 % 16))
      (hexDigitChar (n / 16 % 16)) (hexDigitChar (n % 16)) = some n := by
  have h1 := hexVal?_hexDigitChar (n / 4096 % 16) (Nat.mod_lt _ (by omega))
  have h2 := hexVal?_hexDigitChar (n / 256 % 16) (Nat.mod_lt _ (by omega))
  have h3 := hexVal?_hexDigitChar (n / 16 % 16) (Nat.mod_lt _ (by omega))
  have h4 := hexVal?_hexDigitChar (n % 16) (Nat.mod_lt _ (by omega))
  unfold hex4?
  rw [h1, h2, h3, h4]
  simp only [Option.some.injEq]
  omega

/-- A rendered decimal digit is a digit character. -/
theorem digitChar_isDigit : ∀ k < 10, (Char.ofNat ('0'.toNat + k)).isDigit = true := by decide

/-- Every character `natDigitsGo` emits is a digit. -/
theorem natDigitsGo_digits :
    ∀ fuel n acc, (∀ c ∈ acc, c.isDigit = true) →
      ∀ c ∈ natDigitsGo fuel n acc, c.isDigit = true := by
  intro fuel
  induction fuel with
  | zero => intro n acc hacc; simpa [natDigitsGo] using hacc
  | succ f ih =>
    intro n acc hacc c hc
    unfold natDigitsGo at hc
    by_cases h : n < 10
    · rw [if_pos h] at hc
      rcases List.mem_cons.mp hc with h1 | h1
      · subst h1; exact digitChar_isDigit n h
      · exact hacc c h1
    · rw [if_neg h] at hc
      refine ih (n / 10) _ ?_ c hc
      intro x hx
      rcases List.mem_cons.mp hx with h1 | h1
      · subst h1; exact digitChar_isDigit _ (Nat.mod_lt _ (by omega))
      · exact hacc x h1

/-- So is every character of `natDigits n`. -/
theorem natDigits_digits (n : Nat) : ∀ c ∈ natDigits n, c.isDigit = true :=
  natDigitsGo_digits (n + 1) n [] (by simp)

/-- `natDigitsGo` never discards a nonempty accumulator. -/
theorem natDigitsGo_ne_nil :
    ∀ fuel n acc, acc ≠ [] → natDigitsGo fuel n acc ≠ [] := by
  intro fuel
  induction fuel with
  | zero => intro n acc hacc; simpa [natDigitsGo] using hacc
  | succ f ih =>
    intro n acc hacc
    unfold natDigitsGo
    by_cases h : n < 10
    · rw [if_pos h]; simp
    · rw [if_neg h]
      exact ih (n / 10) _ (by simp)

/-- A rendered number is never empty. -/
theorem natDigits_ne_nil (n : Nat) : natDigits n ≠ [] := by
  unfold natDigits natDigitsGo
  by_cases h : n < 10
  · rw [if_pos h]; simp
  · rw [if_neg h]
    exact natDigitsGo_ne_nil n (n / 10) _ (by simp)

/-- `takeWhile`/`dropWhile` split a satisfying run from a delimited rest. -/
theorem takeWhile_all_append (p : Char → Bool) (l rest : List Char)
    (hl : ∀ c ∈ l, p c = true)
    (hr : ∀ c t, rest = c :: t → p c = false) :
    (l ++ rest).takeWhile p = l ∧ (l ++ rest).dropWhile p = rest := by
  induction l with
  | nil =>
    constructor
    · cases rest with
      | nil => rfl
      | cons c t => simp [List.takeWhile_cons, hr c t rfl]
    · cases rest with
      | nil => rfl
      | cons c t => simp [List.dropWhile_cons, hr c t rfl]
  | cons c t ih =>
    have hc := hl c (by simp)
    obtain ⟨ht1, ht2⟩ := ih (fun x hx => hl x (by simp [hx]))
    constructor
    · simp [List.takeWhile_cons, hc, ht1]
    · simp [List.dropWhile_cons, hc, ht2]

/-- The head of a literal-headed remainder fails the predicate. -/
theorem cons_append_head_not (p : Char → Bool) (c : Char) (l x : List Char)
    (hc : p c = false) :
    ∀ c2 t, ((c :: l) ++ x) = c2 :: t → p c2 = false := by
  intro c2 t h
  rw [List.cons_append] at h
  injection h with h1 h2
  subst h1
  exact hc

/-- The number scanner takes exactly a digit run up to a non-digit. -/
theorem parseNumberLit_digits (ds rest : List Char) (hds : ds ≠ [])
    (hall : ∀ c ∈ ds, c.isDigit = true)
    (hr : ∀ c t, rest = c :: t → c.isDigit = false) :
    parseNumberLit (ds ++ rest) = some (String.mk ds, rest) := by
  obtain ⟨h1, h2⟩ := takeWhile_all_append Char.isDigit ds rest hall hr
  simp only [parseNumberLit]
  rw [h1, h2, if_neg hds]

/-- Scanning one escaped character undoes the escaping, whatever follows. -/
theorem parseStringBody_escapeChar (c : Char) (acc rest : List Char) :
    parseStringBody acc (escapeChar c ++ rest) = parseStringBody (c :: acc) rest := by
  unfold escapeChar
  split_ifs with h1 h2 h3 h4 h5 h6 h7 h8 h9 h10
  · subst h1; rfl
  · subst h2; rfl
  · subst h3; rfl
  · subst h4; rfl
  · subst h5; rfl
  · subst h6; rfl
  · subst h7; rfl
  · -- a \u00XX control escape
    have hlt : c.toNat < 65536 := by omega
    simp only [hexEscape, List.cons_append, List.nil_append]
    rw [parseStringBody.eq_2]
    simp only [hex4?_parts c.toNat hlt]
    rw [if_neg (by omega), if_neg (by omega), Char.ofNat_toNat]
  · -- a printable ASCII character, written literally
    simp only [List.cons_append, List.nil_append]
    rw [parseStringBody.eq_4 acc c rest (fun hc => h1 hc)
        (fun a b d1 d2 r hc _ => h2 hc) (fun e r hc _ => h2 hc)]
    rw [if_neg (by omega)]
  · -- a \uXXXX escape inside the BMP (not a surrogate, by validity)
    have hv : c.toNat < 0xd800 ∨ (0xdfff < c.toNat ∧ c.toNat < 0x110000) := c.valid
    simp only [hexEscape, List.cons_append, List.nil_append]
    rw [parseStringBody.eq_2]
    simp only [hex4?_parts c.toNat h10]
    rw [if_neg (by omega), if_neg (by omega), Char.ofNat_toNat]
  · -- a surrogate pair
    have hv : c.toNat < 0xd800 ∨ (0xdfff < c.toNat ∧ c.toNat < 0x110000) := c.valid
    have hhi : 0xd800 + (c.toNat - 0x10000) / 0x400 < 65536 := by omega
    have hlo : 0xdc00 + (c.toNat - 0x10000) % 0x400 < 65536 := by omega
    simp only [hexEscape, List.cons_append, List.nil_append, List.append_assoc]
    rw [parseStringBody.eq_2]
    simp only [hex4?_parts _ hhi]
    rw [if_pos (by omega)]
    simp only [hex4?_parts _ hlo]
    rw [if_pos (by omega)]
    have hc2 : Char.ofNat (0x10000 + (0xd800 + (c.toNat - 0x10000) / 0x400 - 0xd800) * 0x400
        + (0xdc00 + (c.toNat - 0x10000) % 0x400 - 0xdc00)) = c := by
      have harith : 0x10000 + (0xd800 + (c.toNat - 0x10000) / 0x400 - 0xd800) * 0x400
          + (0xdc00 + (c.toNat - 0x10000) % 0x400 - 0xdc00) = c.toNat := by omega
      rw [harith, Char.ofNat_toNat]
    rw [hc2]

/-- Scanning an escaped run stops exactly at the closing quote. -/
theorem parseStringBody_flatMap (l : List Char) :
    ∀ acc rest, parseStringBody acc (l.flatMap escapeChar ++ '"' :: rest)
      = some (String.mk (acc.reverse ++ l), rest) := by
  induction l with
  | nil =>
    intro acc rest
    simp only [List.flatMap_nil, List.nil_append]
    rw [parseStringBody.eq_1]
    simp
  | cons c t ih =>
    intro acc rest
    rw [List.flatMap_cons, List.append_assoc, parseStringBody_escapeChar, ih]
    simp

/-- A rendered JSON string literal parses back to the string. -/
theorem parseJsonString_jsonString (s : String) (rest : List Char) :
    parseJsonString (jsonString s ++ rest) = some (s, rest) := by
  have hshape : jsonString s ++ rest
      = '"' :: (s.data.flatMap escapeChar ++ '"' :: rest) := by
    simp [jsonString, List.append_assoc]
  rw [hshape]
  show parseStringBody [] (s.data.flatMap escapeChar ++ '"' :: rest) = some (s, rest)
  rw [parseStringBody_flatMap]
  simp

/-- The optional working directory parses back, whether `null` or a
string. -/
theorem parseNullOrString_renderOpt (wd : Option String) (rest : List Char) :
    parseNullOrString (renderOptString wd ++ rest) = some (wd, rest) := by
  cases wd with
  | none =>
    show parseNullOrString ("null".data ++ rest) = some (none, rest)
    unfold parseNullOrString
    rw [dropLit_append]
  | some w =>
    show parseNullOrString (jsonString w ++ rest) = some (some w, rest)
    unfold parseNullOrString
    have hd : dropLit "null".data (jsonString w ++ rest) = none := by
      rw [show jsonString w ++ rest
            = '"' :: (w.data.flatMap escapeChar ++ '"' :: rest) from by
          simp [jsonString]]
      rfl
    rw [hd, parseJsonString_jsonString]

/-- A key literal followed by a rendered string parses back. -/
theorem litStr_append (lit : List Char) (s : String) (rest : List Char) :
    litStr lit (lit ++ (jsonString s ++ rest)) = some (s, rest) := by
  unfold litStr
  rw [dropLit_append]
  exact parseJsonString_jsonString s rest

/-- The five leading fields of a rendered line parse back. -/
theorem parseRecordFront_render (e : AuditEntry) :
    parseRecordFront (renderLogEntryChars e)
      = some (isoformat e.timestamp, e.operation, e.permission_level, e.result, e.user,
              renderDetailsChars e.details) := by
  unfold parseRecordFront renderLogEntryChars
  simp only [List.append_assoc]
  rw [litStr_append]
  simp only [Option.some_bind]
  rw [litStr_append]
  simp only [Option.some_bind]
  rw [litStr_append]
  simp only [Option.some_bind]
  rw [litStr_append]
  simp only [Option.some_bind]
  rw [litStr_append]
  rfl

/-- The rendered `details` part parses back, consuming everything. -/
theorem parseRecordBack_render (d : AuditDetails) :
    parseRecordBack (renderDetailsChars d)
      = some (d.description, String.mk (natDigits d.duration_seconds), d.message,
              d.working_directory, []) := by
  unfold parseRecordBack renderDetailsChars
  simp only [List.append_assoc]
  rw [litStr_append]
  simp only [Option.some_bind]
  rw [dropLit_append]
  simp only [Option.some_bind]
  rw [parseNumberLit_digits _ _ (natDigits_ne_nil _) (natDigits_digits _)
      (cons_append_head_not _ _ _ _ (by decide))]
  simp only [Option.some_bind]
  rw [litStr_append]
  simp only [Option.some_bind]
  rw [dropLit_append]
  simp only [Option.some_bind]
  rw [parseNullOrString_renderOpt]
  simp only [Option.some_bind]
  rw [dropLit_self]
  rfl

/-- A rendered line parses back to the projected record. -/
theorem parseRecordLine_render (e : AuditEntry) :
    parseRecordLine (renderLogEntry e) = some (recordOfEntry e) := by
  unfold parseRecordLine renderLogEntry
  have h1 : (String.mk (renderLogEntryChars e)).data = renderLogEntryChars e := rfl
  rw [h1, parseRecordFront_render]
  simp only [Option.some_bind]
  rw [parseRecordBack_render]
  simp only [Option.some_bind]
  rfl

/-- Stripping is the identity on a list with non-space ends. -/
theorem pyStripList_id (l : List Char)
    (h1 : ∀ c, l.head? = some c → isPySpace c = false)
    (h2 : ∀ c, l.getLast? = some c → isPySpace c = false) :
    pyStripList l = l := by
  cases l with
  | nil => rfl
  | cons c t =>
    have hc := h1 c rfl
    unfold pyStripList
    rw [List.dropWhile_cons, if_neg (by simp [hc])]
    cases hrev : (c :: t).reverse with
    | nil => exact absurd hrev (by simp)
    | cons c2 t2 =>
      have hlast : (c :: t).getLast? = some c2 := by
        rw [← List.head?_reverse, hrev]
        rfl
      have hc2 := h2 c2 hlast
      rw [List.dropWhile_cons, if_neg (by simp [hc2]), ← hrev, List.reverse_reverse]

/-- A rendered line starts with the opening brace. -/
theorem renderLogEntryChars_head (e : AuditEntry) :
    (renderLogEntryChars e).head? = some '\x7b' := rfl

/-- A rendered line ends with the closing brace. -/
theorem renderLogEntryChars_last (e : AuditEntry) :
    (renderLogEntryChars e).getLast? = some '\x7d' := by
  simp only [renderLogEntryChars, renderDetailsChars, List.append_assoc,
    List.getLast?_append]
  rfl

/-- `line.strip()` leaves a rendered line unchanged. -/
theorem pyStrip_render (e : AuditEntry) :
    pyStrip (renderLogEntry e) = renderLogEntry e := by
  unfold pyStrip renderLogEntry
  have h0 : (String.mk (renderLogEntryChars e)).data = renderLogEntryChars e := rfl
  rw [h0, pyStripList_id]
  · intro c hc
    rw [renderLogEntryChars_head] at hc
    injection hc with hc
    subst hc
    decide
  · intro c hc
    rw [renderLogEntryChars_last] at hc
    injection hc with hc
    subst hc
    decide

/-- The full read path of the summary inverts the recorder's write. -/
theorem parseAuditLine_render (e : AuditEntry) :
    parseAuditLine (renderLogEntry e) = some (recordOfEntry e) := by
  unfold parseAuditLine
  rw [pyStrip_render]
  exact parseRecordLine_render e

/-- C9: serializing any `AuditEntry` to its one-line JSON record (as
`_log_operation` does) and re-parsing that line (as `get_audit_summary`
does) recovers the `operation`, `permission_level`, `result` and `user`
fields unchanged. -/
theorem audit_record_roundtrip (e : AuditEntry) :
    ∃ r : LogRecord, parseAuditLine (renderLogEntry e) = some r ∧
      r.operation = e.operation ∧ r.permission_level = e.permission_level ∧
      r.result = e.result ∧ r.user = e.user :=
  ⟨recordOfEntry e, parseAuditLine_render e, rfl, rfl, rfl, rfl⟩

/-! ### Summary lemmas -/

/-- Parsed-entry count equals the count of parseable lines. -/
theorem length_filterMap_countP (l : List String) :
    (l.filterMap parseAuditLine).length
      = l.countP (fun x => (parseAuditLine x).isSome) := by
  induction l with
  | nil => rfl
  | cons a t ih =>
    cases hf : parseAuditLine a with
    | none => simp [List.filterMap_cons, hf, List.countP_cons, ih]
    | some r => simp [List.filterMap_cons, hf, List.countP_cons, ih]

/-- Dropping unparseable lines first changes nothing about parsing. -/
theorem filterMap_filter_isSome (l : List String) :
    ((l.filter (fun x => (parseAuditLine x).isSome)).filterMap parseAuditLine)
      = l.filterMap parseAuditLine := by
  induction l with
  | nil => rfl
  | cons a t ih =>
    cases hf : parseAuditLine a with
    | none => simp [List.filter_cons, List.filterMap_cons, hf, ih]
    | some r => simp [List.filter_cons, List.filterMap_cons, hf, ih]

/-- C7 (amended): for every positive `limit`, the summary's
`total_entries` is `min(N, limit)` where `N` counts the lines that parse
as records, and the corrupt lines contribute to none of the summary — it
equals the summary of the log with the corrupt lines removed.  (At
`limit = 0` the claim fails; see the counterexample.) -/
theorem summarize_total_min_and_corrupt_ignored (lines : List String) (limit : Nat)
    (hl : 1 ≤ limit) :
    (get_audit_summary lines limit).total_entries
      = min (lines.countP (fun l => (parseAuditLine l).isSome)) limit ∧
    get_audit_summary lines limit
      = get_audit_summary (lines.filter (fun l => (parseAuditLine l).isSome)) limit := by
  constructor
  · show (if (lines.filterMap parseAuditLine).length > limit then
            pyTailSlice limit (lines.filterMap parseAuditLine)
          else lines.filterMap parseAuditLine).length = _
    rw [← length_filterMap_countP]
    by_cases hgt : (lines.filterMap parseAuditLine).length > limit
    · rw [if_pos hgt]
      unfold pyTailSlice
      rw [if_neg (by omega), List.length_drop]
      omega
    · rw [if_neg hgt]
      omega
  · unfold get_audit_summary
    rw [filterMap_filter_isSome]

/-- C7 witness: one valid line, one corrupt line, `limit = 1`. -/
theorem summarize_total_min_and_corrupt_ignored_witness :
    1 ≤ 1 ∧
    ((get_audit_summary [renderLogEntry entryW, "corrupt"] 1).total_entries
        = min (([renderLogEntry entryW, "corrupt"] : List String).countP
                (fun l => (parseAuditLine l).isSome)) 1 ∧
      get_audit_summary [renderLogEntry entryW, "corrupt"] 1
        = get_audit_summary (([renderLogEntry entryW, "corrupt"] : List String).filter
            (fun l => (parseAuditLine l).isSome)) 1) :=
  ⟨Nat.le_refl 1,
   summarize_total_min_and_corrupt_ignored [renderLogEntry entryW, "corrupt"] 1
     (Nat.le_refl 1)⟩

/-- C7 counterexample: at `limit = 0` Python's `entries[-limit:]` is
`entries[0:]`, the whole list, so a log holding one valid record line
reports `total_entries = 1`, not `min(1, 0) = 0`. -/
theorem summarize_limit_zero_counterexample :
    ¬((get_audit_summary [renderLogEntry entryW] 0).total_entries
        = min (([renderLogEntry entryW] : List String).countP
                (fun l => (parseAuditLine l).isSome)) 0) := by
  decide

end PermissionSdk
